import Mathlib

/-!
Verification development for the chain-libs core: block header
serialization and proof verification (`block/header.rs`), the vote-tally
certificate and its tally proof (`certificate/vote_tally.rs`), and the
persistent stake-pool registry (`stake/delegation.rs`).

The byte-level codec primitives (big-endian integer packing, raw
public-key/signature serialization) and the persistent HAMT map live in
sibling crates of the repository; they are modelled here from the spec
(sections 2, 4.3 and 6), as marked on each definition. Cryptographic
primitives (content hashing, signature verification) are opaque to this
core and are taken as explicit function parameters.
-/

namespace Chain

/-- Byte buffers are lists of naturals; a well-formed buffer holds values
below 256. -/
abbrev Bytes := List Nat

/-- Modelled from the spec: the codec packs a u16 in big-endian (network)
order. -/
def u16be (n : Nat) : Bytes := [n / 256 % 256, n % 256]

/-- Modelled from the spec: the codec packs a u32 in big-endian (network)
order. -/
def u32be (n : Nat) : Bytes :=
  [n / 2 ^ 24 % 256, n / 2 ^ 16 % 256, n / 2 ^ 8 % 256, n % 256]

/-- Modelled from the spec: the codec packs a u64 in big-endian (network)
order. -/
def u64be (n : Nat) : Bytes :=
  [n / 2 ^ 56 % 256, n / 2 ^ 48 % 256, n / 2 ^ 40 % 256, n / 2 ^ 32 % 256,
   n / 2 ^ 24 % 256, n / 2 ^ 16 % 256, n / 2 ^ 8 % 256, n % 256]

/-- Modelled from the spec: read one byte from a positioned cursor. -/
def readU8 : Bytes → Option (Nat × Bytes)
  | [] => none
  | b :: r => some (b, r)

/-- Modelled from the spec: read a big-endian u16 from a positioned
cursor. -/
def readU16 : Bytes → Option (Nat × Bytes)
  | a :: b :: r => some (a * 256 + b, r)
  | _ => none

/-- Modelled from the spec: read a big-endian u32 from a positioned
cursor. -/
def readU32 : Bytes → Option (Nat × Bytes)
  | a :: b :: c :: d :: r =>
      some (a * 2 ^ 24 + b * 2 ^ 16 + c * 2 ^ 8 + d, r)
  | _ => none

/-- Modelled from the spec: read exactly `n` raw bytes from a positioned
cursor, failing when the buffer is shorter. -/
def readBytesN (n : Nat) (bs : Bytes) : Option (Bytes × Bytes) :=
  if n ≤ bs.length then some (bs.take n, bs.drop n) else none

/-! ## Header data model (`block/header.rs`) -/

/-- Block date, as in `date.rs`: an epoch and a slot identifier, both
u32. -/
structure BlockDate where
  epoch : Nat
  slot_id : Nat
deriving DecidableEq, Repr

/-- Signed header payload `Common`: `block_version` (u16, kept as a plain
natural), block date, content size (u32), and two 32-byte hashes. -/
structure Common where
  block_version : Nat
  block_date : BlockDate
  block_content_size : Nat
  block_content_hash : Bytes
  block_parent_hash : Bytes
deriving DecidableEq, Repr

/-- BFT proof: an Ed25519Extended leader public key and a signature over
the `Common` bytes, both kept as raw byte strings. -/
structure BftProof where
  leader_id : Bytes
  signature : Bytes
deriving DecidableEq, Repr

/-- Genesis-Praos proof: VRF public key and proof, KES public key and KES
signature, all kept as raw byte strings. -/
structure GenesisPraosProof where
  vrf_public_key : Bytes
  vrf_proof : Bytes
  kes_public_key : Bytes
  kes_proof : Bytes
deriving DecidableEq, Repr

/-- Tagged union over the consensus proof carried by a header. -/
inductive Proof where
  | none
  | bft (p : BftProof)
  | genesisPraos (p : GenesisPraosProof)
deriving DecidableEq, Repr

/-- A block header: the signed `Common` payload plus the consensus
proof. -/
structure Header where
  common : Common
  proof : Proof
deriving DecidableEq, Repr

/-- Version tag each proof variant corresponds to (0 = none, 1 = BFT,
2 = Genesis-Praos), used to state header validity. -/
def Proof.versionTag : Proof → Nat
  | .none => 0
  | .bft _ => 1
  | .genesisPraos _ => 2

/-- Field sizes of each proof variant, as the codec fixes them: 32-byte
Ed25519 public keys, 64-byte Ed25519 signatures, 32-byte VRF public
key. -/
def Proof.wellFormed : Proof → Bool
  | .none => true
  | .bft p => p.leader_id.length == 32 && p.signature.length == 64
  | .genesisPraos p => p.vrf_public_key.length == 32

/-- Validity of a header: numeric fields fit their wire widths, hashes are
32 bytes, and the proof variant agrees with `block_version` and carries
fields of the fixed codec sizes. -/
def Header.wellFormed (h : Header) : Bool :=
  (h.common.block_version == h.proof.versionTag) &&
  decide (h.common.block_content_size < 2 ^ 32) &&
  decide (h.common.block_date.epoch < 2 ^ 32) &&
  decide (h.common.block_date.slot_id < 2 ^ 32) &&
  (h.common.block_content_hash.length == 32) &&
  (h.common.block_parent_hash.length == 32) &&
  h.proof.wellFormed

/-! ## Header serialization (`impl property::Serialize`) -/

/-- Serialization of `Common` (`impl property::Serialize for Common`):
`u16 version | u32 content_size | u32 epoch | u32 slot | 32B content_hash
| 32B parent_hash`. -/
def Common.serialize (c : Common) : Bytes :=
  u16be c.block_version ++ u32be c.block_content_size ++
  u32be c.block_date.epoch ++ u32be c.block_date.slot_id ++
  c.block_content_hash ++ c.block_parent_hash

/-- Proof bytes appended after `Common`: nothing for `None`, public key
then signature for `Bft`, and the four raw fields for `GenesisPraos`. -/
def Proof.serialize : Proof → Bytes
  | .none => []
  | .bft p => p.leader_id ++ p.signature
  | .genesisPraos p =>
      p.vrf_public_key ++ p.vrf_proof ++ p.kes_public_key ++ p.kes_proof

/-- Serialization of `Header` (`impl property::Serialize for Header`): a
2-byte length hole is reserved, the body (`Common` then proof bytes) is
written, and the hole is filled with the body length as a u16. -/
def Header.serialize (h : Header) : Bytes :=
  u16be (h.common.serialize ++ h.proof.serialize).length ++
  (h.common.serialize ++ h.proof.serialize)

/-! ## Header deserialization (`impl property::Deserialize`) -/

/-- Outcomes a failed header decode can take: a structural / truncation
error (`std::io::Error` in the source) or the process-fatal
`unimplemented!` panic hit for unsupported block versions. -/
inductive DeserializeError where
  | ioError
  | unimplementedVersion (v : Nat)
deriving DecidableEq, Repr

/-- Deserialization of `Header`: read and discard the u16 frame length,
read the `Common` fields in order, then dispatch on `block_version`:
0 yields `Proof.none`, 1 decodes a BFT proof (32-byte public key then
64-byte signature), and version 2 (Genesis-Praos) or any other value hits
`unimplemented!`. -/
def Header.deserialize (bs : Bytes) : Except DeserializeError (Header × Bytes) :=
  match readU16 bs with
  | Option.none => .error .ioError
  | some (_, r0) =>
  match readU16 r0 with
  | Option.none => .error .ioError
  | some (v, r1) =>
  match readU32 r1 with
  | Option.none => .error .ioError
  | some (cs, r2) =>
  match readU32 r2 with
  | Option.none => .error .ioError
  | some (e, r3) =>
  match readU32 r3 with
  | Option.none => .error .ioError
  | some (s, r4) =>
  match readBytesN 32 r4 with
  | Option.none => .error .ioError
  | some (ch, r5) =>
  match readBytesN 32 r5 with
  | Option.none => .error .ioError
  | some (ph, r6) =>
  let mk : Proof → Bytes → Except DeserializeError (Header × Bytes) :=
    fun proof rest =>
      .ok (⟨⟨v, ⟨e, s⟩, cs, ch, ph⟩, proof⟩, rest)
  match v with
  | 0 => mk Proof.none r6
  | 1 =>
    match readBytesN 32 r6 with
    | Option.none => .error .ioError
    | some (pk, r7) =>
    match readBytesN 64 r7 with
    | Option.none => .error .ioError
    | some (sg, r8) => mk (Proof.bft ⟨pk, sg⟩) r8
  | w => .error (.unimplementedVersion w)

/-! ## Codec round-trip lemmas -/

theorem readU16_u16be (n : Nat) (r : Bytes) :
    readU16 (u16be n ++ r) = some (n % 2 ^ 16, r) := by
  simp only [u16be, List.cons_append, List.nil_append, readU16]
  congr 1
  congr 1
  omega

theorem readU32_u32be (n : Nat) (r : Bytes) :
    readU32 (u32be n ++ r) = some (n % 2 ^ 32, r) := by
  simp only [u32be, List.cons_append, List.nil_append, readU32]
  congr 1
  congr 1
  omega

theorem readBytesN_append (l r : Bytes) (n : Nat) (h : l.length = n) :
    readBytesN n (l ++ r) = some (l, r) := by
  subst h
  simp [readBytesN, List.take_left, List.drop_left]

/-! ## Header deserialization on an explicit frame, per version -/

theorem deserialize_frame_v0 (L cs e s : Nat) (ch ph rest : Bytes)
    (hcs : cs < 2 ^ 32) (he : e < 2 ^ 32) (hs : s < 2 ^ 32)
    (hch : ch.length = 32) (hph : ph.length = 32) :
    Header.deserialize
      (u16be L ++ u16be 0 ++ u32be cs ++ u32be e ++ u32be s ++ ch ++ ph ++ rest)
      = .ok (⟨⟨0, ⟨e, s⟩, cs, ch, ph⟩, .none⟩, rest) := by
  simp only [Header.deserialize, List.append_assoc, readU16_u16be, readU32_u32be,
    readBytesN_append ch _ 32 hch, readBytesN_append ph _ 32 hph,
    Nat.mod_eq_of_lt hcs, Nat.mod_eq_of_lt he, Nat.mod_eq_of_lt hs,
    Nat.zero_mod]

theorem deserialize_frame_v1 (L cs e s : Nat) (ch ph pk sg rest : Bytes)
    (hcs : cs < 2 ^ 32) (he : e < 2 ^ 32) (hs : s < 2 ^ 32)
    (hch : ch.length = 32) (hph : ph.length = 32)
    (hpk : pk.length = 32) (hsg : sg.length = 64) :
    Header.deserialize
      (u16be L ++ u16be 1 ++ u32be cs ++ u32be e ++ u32be s ++ ch ++ ph ++
        pk ++ sg ++ rest)
      = .ok (⟨⟨1, ⟨e, s⟩, cs, ch, ph⟩, .bft ⟨pk, sg⟩⟩, rest) := by
  simp only [Header.deserialize, List.append_assoc, readU16_u16be, readU32_u32be,
    readBytesN_append ch _ 32 hch, readBytesN_append ph _ 32 hph,
    readBytesN_append pk _ 32 hpk, readBytesN_append sg _ 64 hsg,
    Nat.mod_eq_of_lt hcs, Nat.mod_eq_of_lt he, Nat.mod_eq_of_lt hs,
    Nat.mod_eq_of_lt (by norm_num : (1 : Nat) < 2 ^ 16)]

theorem deserialize_frame_unsupported (L v cs e s : Nat) (ch ph rest : Bytes)
    (hv2 : 2 ≤ v) (hv : v < 2 ^ 16)
    (hch : ch.length = 32) (hph : ph.length = 32) :
    Header.deserialize
      (u16be L ++ u16be v ++ u32be cs ++ u32be e ++ u32be s ++ ch ++ ph ++ rest)
      = .error (.unimplementedVersion v) := by
  obtain ⟨w, rfl⟩ : ∃ w, v = w + 2 := ⟨v - 2, by omega⟩
  simp only [Header.deserialize, List.append_assoc, readU16_u16be, readU32_u32be,
    readBytesN_append ch _ 32 hch, readBytesN_append ph _ 32 hph,
    Nat.mod_eq_of_lt hv]

/-! ## Claims C1 and C8 -/

/-- C1: for every valid `Header` whose proof variant is `None` or `Bft`
(block version 0 or 1), deserializing the bytes produced by serializing
it yields the same header back (with the whole frame consumed). -/
theorem header_serialization_roundtrip (h : Header)
    (hwf : h.wellFormed = true)
    (hp : h.proof = Proof.none ∨ ∃ p, h.proof = Proof.bft p) :
    Header.deserialize (Header.serialize h) = .ok (h, []) := by
  obtain ⟨⟨v, ⟨e, s⟩, cs, ch, ph⟩, proof⟩ := h
  cases proof with
  | none =>
    simp only [Header.wellFormed, Proof.wellFormed, Bool.and_eq_true,
      beq_iff_eq, decide_eq_true_eq] at hwf
    obtain ⟨⟨⟨⟨⟨⟨hv, hcs⟩, he⟩, hs⟩, hch⟩, hph⟩, -⟩ := hwf
    simp only [Proof.versionTag] at hv
    subst hv
    have hser : Header.serialize ⟨⟨0, ⟨e, s⟩, cs, ch, ph⟩, Proof.none⟩ =
        u16be (Common.serialize ⟨0, ⟨e, s⟩, cs, ch, ph⟩ ++
          Proof.serialize Proof.none).length ++ u16be 0 ++ u32be cs ++
          u32be e ++ u32be s ++ ch ++ ph ++ ([] : Bytes) := by
      simp [Header.serialize, Common.serialize, Proof.serialize]
    rw [hser, deserialize_frame_v0 _ _ _ _ _ _ _ hcs he hs hch hph]
  | bft p =>
    simp only [Header.wellFormed, Proof.wellFormed, Bool.and_eq_true,
      beq_iff_eq, decide_eq_true_eq] at hwf
    obtain ⟨⟨⟨⟨⟨⟨hv, hcs⟩, he⟩, hs⟩, hch⟩, hph⟩, hpk, hsg⟩ := hwf
    simp only [Proof.versionTag] at hv
    subst hv
    have hser : Header.serialize ⟨⟨1, ⟨e, s⟩, cs, ch, ph⟩, Proof.bft p⟩ =
        u16be (Common.serialize ⟨1, ⟨e, s⟩, cs, ch, ph⟩ ++
          Proof.serialize (Proof.bft p)).length ++ u16be 1 ++ u32be cs ++
          u32be e ++ u32be s ++ ch ++ ph ++ p.leader_id ++ p.signature ++
          ([] : Bytes) := by
      simp [Header.serialize, Common.serialize, Proof.serialize]
    rw [hser, deserialize_frame_v1 _ _ _ _ _ _ _ _ _ hcs he hs hch hph hpk hsg]
  | genesisPraos p =>
    rcases hp with h1 | ⟨q, h1⟩ <;> simp at h1

/-- Concrete all-zero 32-byte string used by the witnesses. -/
def zeros32 : Bytes := List.replicate 32 0

/-- Concrete all-zero 64-byte string used by the witnesses. -/
def zeros64 : Bytes := List.replicate 64 0

/-- Concrete BFT header used by the round-trip witness. -/
def bftHeader : Header :=
  ⟨⟨1, ⟨3, 7⟩, 42, zeros32, zeros32⟩, Proof.bft ⟨zeros32, zeros64⟩⟩

theorem header_serialization_roundtrip_witness :
    bftHeader.wellFormed = true ∧
    (bftHeader.proof = Proof.none ∨ ∃ p, bftHeader.proof = Proof.bft p) ∧
    Header.deserialize (Header.serialize bftHeader) = .ok (bftHeader, []) :=
  ⟨by decide, Or.inr ⟨⟨zeros32, zeros64⟩, rfl⟩,
    header_serialization_roundtrip bftHeader (by decide)
      (Or.inr ⟨⟨zeros32, zeros64⟩, rfl⟩)⟩

/-- C8: after the `Common` fields are read, deserialization dispatches on
`block_version`: version 0 yields `Proof.none`, version 1 decodes a BFT
proof, and version 2 or any other value fails fatally with the
unsupported-version signal, never returning a decoded header. -/
theorem header_deserialize_version_dispatch (L cs e s : Nat)
    (ch ph rest : Bytes)
    (hcs : cs < 2 ^ 32) (he : e < 2 ^ 32) (hs : s < 2 ^ 32)
    (hch : ch.length = 32) (hph : ph.length = 32) :
    (Header.deserialize
        (u16be L ++ u16be 0 ++ u32be cs ++ u32be e ++ u32be s ++ ch ++ ph ++
          rest)
        = .ok (⟨⟨0, ⟨e, s⟩, cs, ch, ph⟩, .none⟩, rest)) ∧
    (∀ pk sg : Bytes, pk.length = 32 → sg.length = 64 →
      Header.deserialize
        (u16be L ++ u16be 1 ++ u32be cs ++ u32be e ++ u32be s ++ ch ++ ph ++
          pk ++ sg ++ rest)
        = .ok (⟨⟨1, ⟨e, s⟩, cs, ch, ph⟩, .bft ⟨pk, sg⟩⟩, rest)) ∧
    (∀ v : Nat, 2 ≤ v → v < 2 ^ 16 →
      Header.deserialize
        (u16be L ++ u16be v ++ u32be cs ++ u32be e ++ u32be s ++ ch ++ ph ++
          rest)
        = .error (.unimplementedVersion v)) :=
  ⟨deserialize_frame_v0 L cs e s ch ph rest hcs he hs hch hph,
   fun pk sg hpk hsg =>
     deserialize_frame_v1 L cs e s ch ph pk sg rest hcs he hs hch hph hpk hsg,
   fun v hv2 hv =>
     deserialize_frame_unsupported L v cs e s ch ph rest hv2 hv hch hph⟩

theorem header_deserialize_version_dispatch_witness :
    zeros32.length = 32 ∧ (2 : Nat) ≤ 5 ∧
    Header.deserialize
      (u16be 0 ++ u16be 5 ++ u32be 0 ++ u32be 0 ++ u32be 0 ++ zeros32 ++
        zeros32 ++ [])
      = .error (.unimplementedVersion 5) :=
  ⟨by decide, by decide,
    (header_deserialize_version_dispatch 0 0 0 0 zeros32 zeros32 []
      (by norm_num) (by norm_num) (by norm_num) (by decide) (by decide)).2.2
      5 (by decide) (by norm_num)⟩

/-! ## Header hash and proof verification -/

/-- Two-valued verification outcome, as in `chain_crypto::Verification`. -/
inductive Verification where
  | Success
  | Failed
deriving DecidableEq, Repr

/-- Header identity (`Header::hash`): the content hash of the serialized
header with the first two (length-prefix) bytes excluded. The hash
primitive (Blake2b256) is opaque to this core and is passed as the
`hashBytes` parameter. -/
def Header.hash (hashBytes : Bytes → Bytes) (h : Header) : Bytes :=
  hashBytes ((Header.serialize h).drop 2)

/-- Proof verification (`Header::verify_proof`): `None` always succeeds;
`Bft` verifies the signature against the leader key over `Common`;
`GenesisPraos` verifies only the KES signature against the KES public key
over `Common` — the VRF fields are not checked. The two signature
schemes are opaque and passed as parameters taking the signature, the
public key and the signed `Common` message. -/
def Header.verify_proof
    (verifyBft verifyKes : Bytes → Bytes → Common → Verification)
    (h : Header) : Verification :=
  match h.proof with
  | .none => .Success
  | .bft p => verifyBft p.signature p.leader_id h.common
  | .genesisPraos p => verifyKes p.kes_proof p.kes_public_key h.common

/-- C2: for every header, `Header::hash` equals the content hash of the
canonical serialization with the first two (length-prefix) bytes
excluded; equivalently it hashes exactly the frame body (`Common` bytes
followed by proof bytes). Determinism is immediate: the hash is a pure
function of the header value. -/
theorem header_hash_identity (hashBytes : Bytes → Bytes) (h : Header) :
    Header.hash hashBytes h = hashBytes ((Header.serialize h).drop 2) ∧
    Header.hash hashBytes h =
      hashBytes (h.common.serialize ++ h.proof.serialize) := by
  refine ⟨rfl, ?_⟩
  simp [Header.hash, Header.serialize, u16be]

/-- C7: for Genesis-Praos headers that agree on `Common`, the KES public
key and the KES proof, `verify_proof` returns the same outcome whatever
the VRF public key and VRF proof are: verification depends only on the
KES check over the `Common` message. -/
theorem verify_proof_ignores_vrf
    (verifyBft verifyKes : Bytes → Bytes → Common → Verification)
    (c : Common) (g1 g2 : GenesisPraosProof)
    (hk : g1.kes_public_key = g2.kes_public_key)
    (hp : g1.kes_proof = g2.kes_proof) :
    Header.verify_proof verifyBft verifyKes ⟨c, .genesisPraos g1⟩ =
      Header.verify_proof verifyBft verifyKes ⟨c, .genesisPraos g2⟩ := by
  simp [Header.verify_proof, hk, hp]

/-- Concrete Genesis-Praos proofs agreeing on the KES fields but with
different VRF fields, used by the C7 witness. -/
def gpA : GenesisPraosProof := ⟨zeros32, zeros32, zeros32, zeros64⟩

/-- Second concrete Genesis-Praos proof, differing from `gpA` in both
VRF fields. -/
def gpB : GenesisPraosProof :=
  ⟨List.replicate 32 9, List.replicate 96 7, zeros32, zeros64⟩

theorem verify_proof_ignores_vrf_witness :
    gpA.kes_public_key = gpB.kes_public_key ∧
    gpA.kes_proof = gpB.kes_proof ∧
    gpA.vrf_public_key ≠ gpB.vrf_public_key ∧
    Header.verify_proof (fun _ _ _ => .Failed) (fun _ _ _ => .Failed)
        ⟨⟨2, ⟨0, 0⟩, 0, zeros32, zeros32⟩, .genesisPraos gpA⟩ =
      Header.verify_proof (fun _ _ _ => .Failed) (fun _ _ _ => .Failed)
        ⟨⟨2, ⟨0, 0⟩, 0, zeros32, zeros32⟩, .genesisPraos gpB⟩ :=
  ⟨rfl, rfl, by decide,
    verify_proof_ignores_vrf (fun _ _ _ => .Failed) (fun _ _ _ => .Failed)
      ⟨2, ⟨0, 0⟩, 0, zeros32, zeros32⟩ gpA gpB rfl rfl⟩

/-! ## Persistent stake-pool registry (`stake/delegation.rs`) -/

/-- Modelled from the spec: the `imhamt::Hamt` persistent map (outside
`src/`), observed through lookup; represented as an association list with
unique keys. Pool ids and the other identifier types are kept as
naturals. -/
def htLookup {α : Type} : List (Nat × α) → Nat → Option α
  | [], _ => Option.none
  | e :: t, k => if e.1 = k then some e.2 else htLookup t k

/-- Modelled from the spec: persistent-map insertion, which fails (returns
`none`) when the key is already present — no overwrite semantics. -/
def htInsert {α : Type} (t : List (Nat × α)) (k : Nat) (v : α) :
    Option (List (Nat × α)) :=
  if (htLookup t k).isSome then none else some ((k, v) :: t)

/-- Deletion of every binding of a key, the functional core of
persistent-map removal. -/
def htDelete {α : Type} : List (Nat × α) → Nat → List (Nat × α)
  | [], _ => []
  | e :: t, k => if e.1 = k then htDelete t k else e :: htDelete t k

/-- Modelled from the spec: persistent-map removal, which fails (returns
`none`) when the key is absent. -/
def htRemove {α : Type} (t : List (Nat × α)) (k : Nat) :
    Option (List (Nat × α)) :=
  if (htLookup t k).isSome then some (htDelete t k) else none

/-- Typed error taxonomy of the delegation module (`DelegationError`);
identifier payloads are kept as naturals. -/
inductive DelegationError where
  | StakeDelegationSigIsInvalid
  | StakeDelegationStakeKeyIsInvalid (k : Nat)
  | StakeDelegationPoolKeyIsInvalid (p : Nat)
  | StakeDelegationAccountIsInvalid (a : Nat)
  | StakePoolRegistrationPoolSigIsInvalid
  | StakePoolAlreadyExists (p : Nat)
  | StakePoolRetirementSigIsInvalid
  | StakePoolDoesNotExist (p : Nat)
deriving DecidableEq, Repr

/-- Registry of stake pools: a persistent map from pool id to pool info.
The pool-info type is a parameter; its `to_id` projection (defined in
`stake/role.rs`, outside `src/`) is passed explicitly where needed. -/
structure DelegationState (α : Type) where
  stake_pools : List (Nat × α)

/-- Membership query `DelegationState::stake_pool_exists`: a pure lookup
mapped to a boolean. -/
def DelegationState.stake_pool_exists {α : Type} (s : DelegationState α)
    (pool_id : Nat) : Bool :=
  (htLookup s.stake_pools pool_id).elim false (fun _ => true)

/-- Registration `DelegationState::register_stake_pool`: compute the id
from the info, insert; an id collision yields
`StakePoolAlreadyExists id`. -/
def DelegationState.register_stake_pool {α : Type} (toId : α → Nat)
    (s : DelegationState α) (owner : α) :
    Except DelegationError (DelegationState α) :=
  match htInsert s.stake_pools (toId owner) owner with
  | Option.none => .error (.StakePoolAlreadyExists (toId owner))
  | some t => .ok ⟨t⟩

/-- Deregistration `DelegationState::deregister_stake_pool`: remove the
id; a missing id yields `StakePoolDoesNotExist pool_id`. -/
def DelegationState.deregister_stake_pool {α : Type}
    (s : DelegationState α) (pool_id : Nat) :
    Except DelegationError (DelegationState α) :=
  match htRemove s.stake_pools pool_id with
  | Option.none => .error (.StakePoolDoesNotExist pool_id)
  | some t => .ok ⟨t⟩

/-! ## Registry lemmas -/

theorem stake_pool_exists_iff_lookup {α : Type} (s : DelegationState α)
    (k : Nat) :
    s.stake_pool_exists k = (htLookup s.stake_pools k).isSome := by
  cases hl : htLookup s.stake_pools k <;>
    simp [DelegationState.stake_pool_exists, hl, Option.elim]

theorem htLookup_delete_ne {α : Type} (t : List (Nat × α)) (k q : Nat)
    (hq : q ≠ k) :
    htLookup (htDelete t k) q = htLookup t q := by
  induction t with
  | nil => rfl
  | cons e t ih =>
    by_cases he : e.1 = k
    · have hkq : k ≠ q := Ne.symm hq
      simp [htDelete, htLookup, he, hkq, ih]
    · by_cases heq : e.1 = q
      · simp [htDelete, htLookup, he, heq, hq]
      · simp [htDelete, htLookup, he, heq, hq, ih]

theorem htLookup_delete_self {α : Type} (t : List (Nat × α)) (k : Nat) :
    htLookup (htDelete t k) k = Option.none := by
  induction t with
  | nil => rfl
  | cons e t ih =>
    by_cases he : e.1 = k
    · simpa [htDelete, he] using ih
    · simp [htDelete, htLookup, he, ih]

/-! ## Claims C3, C4 and C10 -/

/-- C3: registering a pool whose id is absent succeeds and yields a state
where the id exists, while the original state is untouched (the id is
still absent there); registering the same pool again in the new state
fails with `StakePoolAlreadyExists` carrying the offending id. -/
theorem register_stake_pool_spec {α : Type} (toId : α → Nat)
    (s : DelegationState α) (P : α)
    (habs : s.stake_pool_exists (toId P) = false) :
    ∃ s2 : DelegationState α,
      s.register_stake_pool toId P = .ok s2 ∧
      s2.stake_pool_exists (toId P) = true ∧
      s.stake_pool_exists (toId P) = false ∧
      s2.register_stake_pool toId P =
        .error (.StakePoolAlreadyExists (toId P)) := by
  have hl : (htLookup s.stake_pools (toId P)).isSome = false := by
    rw [← stake_pool_exists_iff_lookup]; exact habs
  refine ⟨⟨(toId P, P) :: s.stake_pools⟩, ?_, ?_, habs, ?_⟩
  · simp [DelegationState.register_stake_pool, htInsert, hl]
  · simp [DelegationState.stake_pool_exists, htLookup]
  · simp [DelegationState.register_stake_pool, htInsert, htLookup]

/-- Concrete one-entry registration state used by the C3 witness. -/
def emptyState : DelegationState Nat := ⟨[]⟩

theorem register_stake_pool_spec_witness :
    emptyState.stake_pool_exists 7 = false ∧
    ∃ s2 : DelegationState Nat,
      emptyState.register_stake_pool (fun x => x) 7 = .ok s2 ∧
      s2.stake_pool_exists 7 = true ∧
      emptyState.stake_pool_exists 7 = false ∧
      s2.register_stake_pool (fun x => x) 7 =
        .error (.StakePoolAlreadyExists 7) :=
  ⟨rfl, register_stake_pool_spec (fun x => x) emptyState 7 rfl⟩

/-- C10: a successful registration changes the membership of no pool id
other than the one registered — `stake_pool_exists` answers the same in
the new state as in the old one for every distinct id. -/
theorem register_stake_pool_frame {α : Type} (toId : α → Nat)
    (s s2 : DelegationState α) (P : α) (q : Nat)
    (hq : q ≠ toId P)
    (hreg : s.register_stake_pool toId P = .ok s2) :
    s2.stake_pool_exists q = s.stake_pool_exists q := by
  unfold DelegationState.register_stake_pool htInsert at hreg
  by_cases hl : (htLookup s.stake_pools (toId P)).isSome
  · simp [hl] at hreg
  · simp only [hl, if_neg, Bool.false_eq_true, not_false_iff, if_false] at hreg
    cases hreg
    have hne : toId P ≠ q := fun hh => hq hh.symm
    simp [DelegationState.stake_pool_exists, htLookup, hne]

/-- Non-registered pool id kept fixed by the C10 witness registration. -/
def oneState : DelegationState Nat := ⟨[(3, 3)]⟩

theorem register_stake_pool_frame_witness :
    (3 : Nat) ≠ 7 ∧
    oneState.register_stake_pool (fun x => x) 7 = .ok ⟨[(7, 7), (3, 3)]⟩ ∧
    (DelegationState.stake_pool_exists ⟨[(7, 7), (3, 3)]⟩ 3 =
      oneState.stake_pool_exists 3) :=
  ⟨by decide, rfl,
    register_stake_pool_frame (fun x => x) oneState ⟨[(7, 7), (3, 3)]⟩ 7 3
      (by decide) rfl⟩

/-- C4: deregistering an absent pool id fails with
`StakePoolDoesNotExist` carrying the id; deregistering a present id
succeeds with a state where the id is absent while every other id keeps
exactly the same lookup result (same info). -/
theorem deregister_stake_pool_spec {α : Type} (s : DelegationState α)
    (pid : Nat) :
    (s.stake_pool_exists pid = false →
      s.deregister_stake_pool pid = .error (.StakePoolDoesNotExist pid)) ∧
    (s.stake_pool_exists pid = true →
      ∃ s2 : DelegationState α,
        s.deregister_stake_pool pid = .ok s2 ∧
        s2.stake_pool_exists pid = false ∧
        ∀ q : Nat, q ≠ pid →
          htLookup s2.stake_pools q = htLookup s.stake_pools q) := by
  constructor
  · intro habs
    have hl : (htLookup s.stake_pools pid).isSome = false := by
      rw [← stake_pool_exists_iff_lookup]; exact habs
    simp [DelegationState.deregister_stake_pool, htRemove, hl]
  · intro hpres
    have hl : (htLookup s.stake_pools pid).isSome = true := by
      rw [← stake_pool_exists_iff_lookup]; exact hpres
    refine ⟨⟨htDelete s.stake_pools pid⟩, ?_, ?_, ?_⟩
    · simp [DelegationState.deregister_stake_pool, htRemove, hl]
    · rw [stake_pool_exists_iff_lookup]
      simp [htLookup_delete_self]
    · intro q hq
      exact htLookup_delete_ne s.stake_pools pid q hq

theorem deregister_stake_pool_spec_witness :
    oneState.stake_pool_exists 9 = false ∧
    oneState.deregister_stake_pool 9 =
      .error (.StakePoolDoesNotExist 9) ∧
    oneState.stake_pool_exists 3 = true ∧
    ∃ s2 : DelegationState Nat,
      oneState.deregister_stake_pool 3 = .ok s2 ∧
      s2.stake_pool_exists 3 = false ∧
      ∀ q : Nat, q ≠ 3 →
        htLookup s2.stake_pools q = htLookup oneState.stake_pools q :=
  ⟨rfl, (deregister_stake_pool_spec oneState 9).1 rfl, rfl,
    (deregister_stake_pool_spec oneState 3).2 rfl⟩

/-! ## Vote-tally certificate (`certificate/vote_tally.rs`) -/

/-- Declared tally type of a vote plan (`vote::PayloadType`, outside
`src/`): disclosed (`Public`) or encrypted (`Private`) tally. -/
inductive PayloadType where
  | Public
  | Private
deriving DecidableEq, Repr

/-- Modelled from the spec: the wire tag of a payload type, `0` for
`Public` and `1` for `Private`. -/
def PayloadType.toByte : PayloadType → Nat
  | .Public => 0
  | .Private => 1

/-- Modelled from the spec: decoding of a payload-type byte; an
out-of-range byte is a structural error (`none` here). -/
def PayloadType.fromByte : Nat → Option PayloadType
  | 0 => some .Public
  | 1 => some .Private
  | _ => Option.none

/-- Payload carried by a `VoteTally` certificate. -/
inductive VoteTallyPayload where
  | Public
  | Private
deriving DecidableEq, Repr

/-- Mapping `VoteTallyPayload::payload_type`. -/
def VoteTallyPayload.payload_type : VoteTallyPayload → PayloadType
  | .Public => PayloadType.Public
  | .Private => PayloadType.Private

/-- Vote-tally certificate body: a 32-byte vote-plan id and the tally
payload. -/
structure VoteTally where
  id : Bytes
  payload : VoteTallyPayload
deriving DecidableEq, Repr

/-- Serialization `VoteTally::serialize_in`: the raw 32-byte id followed
by the payload-type tag byte. -/
def VoteTally.serialize (v : VoteTally) : Bytes :=
  v.id ++ [v.payload.payload_type.toByte]

/-- Structural decoding errors (`chain_core::mempack::ReadError`). -/
inductive ReadError where
  | notEnoughBytes
  | structureInvalid (msg : String)
deriving DecidableEq, Repr

/-- Decoding `Readable for VoteTally`: 32 raw id bytes, then the
payload-type byte, which must be in range. -/
def VoteTally.read (bs : Bytes) : Except ReadError (VoteTally × Bytes) :=
  match readBytesN 32 bs with
  | Option.none => .error .notEnoughBytes
  | some (id, r1) =>
  match readU8 r1 with
  | Option.none => .error .notEnoughBytes
  | some (b, r2) =>
  match PayloadType.fromByte b with
  | Option.none => .error (.structureInvalid "payload type out of range")
  | some PayloadType.Public => .ok (⟨id, .Public⟩, r2)
  | some PayloadType.Private => .ok (⟨id, .Private⟩, r2)

/-- Tally proof: committee id and covering signature (raw bytes), plus
the ordered decryption shares for the `Private` variant; each share is
kept as its serialized byte string. -/
inductive TallyProof where
  | Public (id : Bytes) (signature : Bytes)
  | Private (id : Bytes) (signature : Bytes) (shares : List Bytes)
deriving DecidableEq, Repr

/-- Serialization `TallyProof::serialize_in`: tag byte, 32-byte committee
id, signature bytes; the `Private` variant then appends the share count
as a u64 and the concatenated share bytes. -/
def TallyProof.serialize_in : TallyProof → Bytes
  | .Public id signature => 0 :: (id ++ signature)
  | .Private id signature shares =>
      1 :: (id ++ signature ++ u64be shares.length ++ shares.flatten)

/-- Iterated share decoding of the `Private` read path: the share decoder
itself (`chain_vote::TallyDecryptShare::read`, outside `src/`) is passed
as a parameter. -/
def readShares (readShare : Bytes → Option (Bytes × Bytes)) :
    Nat → Bytes → Option (List Bytes × Bytes)
  | 0, bs => some ([], bs)
  | n + 1, bs =>
    match readShare bs with
    | Option.none => Option.none
    | some (sh, r1) =>
    match readShares readShare n r1 with
    | Option.none => Option.none
    | some (shs, r2) => some (sh :: shs, r2)

/-- Decoding `Readable for TallyProof`: dispatch on the tag byte; tag 0
reads a committee id and a signature; tag 1 additionally reads the share
count as a SINGLE byte (`get_u8`) and then that many shares; any other
tag is a structural error. The committee id is 32 bytes; the signature
width and the share decoder are parameters. -/
def TallyProof.read (sigSize : Nat)
    (readShare : Bytes → Option (Bytes × Bytes)) (bs : Bytes) :
    Except ReadError (TallyProof × Bytes) :=
  match readU8 bs with
  | Option.none => .error .notEnoughBytes
  | some (0, r0) =>
    (match readBytesN 32 r0 with
     | Option.none => .error .notEnoughBytes
     | some (id, r1) =>
     match readBytesN sigSize r1 with
     | Option.none => .error .notEnoughBytes
     | some (sg, r2) => .ok (.Public id sg, r2))
  | some (1, r0) =>
    (match readBytesN 32 r0 with
     | Option.none => .error .notEnoughBytes
     | some (id, r1) =>
     match readBytesN sigSize r1 with
     | Option.none => .error .notEnoughBytes
     | some (sg, r2) =>
     match readU8 r2 with
     | Option.none => .error .notEnoughBytes
     | some (n, r3) =>
     match readShares readShare n r3 with
     | Option.none => .error .notEnoughBytes
     | some (shs, r4) => .ok (.Private id sg shs, r4))
  | some (_, _) => .error (.structureInvalid "Unknown Tally proof type")

/-- Verification `TallyProof::verify`: reject with `Failed` when the
proof variant disagrees with the declared tally type; otherwise derive
the committee public key from the id and verify the signature over the
binding data. Key derivation and signature checking are opaque
parameters. -/
def TallyProof.verify (pubKeyOf : Bytes → Bytes)
    (verifySlice : Bytes → Bytes → Bytes → Verification)
    (p : TallyProof) (tally_type : PayloadType) (verify_data : Bytes) :
    Verification :=
  match p with
  | .Public id signature =>
      if tally_type ≠ PayloadType.Public then .Failed
      else verifySlice signature (pubKeyOf id) verify_data
  | .Private id signature _ =>
      if tally_type ≠ PayloadType.Private then .Failed
      else verifySlice signature (pubKeyOf id) verify_data

/-! ## Claims C5, C6 and C9 -/

/-- C5: `TallyProof::verify` returns `Failed` whenever the proof variant
disagrees with the declared tally type — a `Public` proof against
`PayloadType::Private` and a `Private` proof against
`PayloadType::Public` — for every key-derivation and signature-checking
function, i.e. regardless of whether the signature is valid. -/
theorem tally_proof_verify_type_mismatch (pubKeyOf : Bytes → Bytes)
    (verifySlice : Bytes → Bytes → Bytes → Verification)
    (id sg verify_data : Bytes) (shares : List Bytes) :
    TallyProof.verify pubKeyOf verifySlice (.Public id sg)
        PayloadType.Private verify_data = .Failed ∧
    TallyProof.verify pubKeyOf verifySlice (.Private id sg shares)
        PayloadType.Public verify_data = .Failed := by
  constructor <;> simp [TallyProof.verify]

/-- C6: on the `Private` variant the writer emits the share count as an
8-byte big-endian u64 while the reader consumes a single count byte.
Conjunct one exhibits the u64 write (8 bytes after the signature);
conjunct two shows the round trip on a shareless proof leaving the 7
surplus count bytes unconsumed; conjunct three shows a one-share proof
decoding to ZERO shares (the consumed byte is the most-significant,
always-zero, byte of the count), the share bytes surviving only as
unparsed residue. -/
theorem tally_proof_share_count_width_mismatch
    (readShare : Bytes → Option (Bytes × Bytes)) (id sg sh : Bytes)
    (hid : id.length = 32) :
    (∀ shares : List Bytes,
      TallyProof.serialize_in (.Private id sg shares) =
        1 :: (id ++ sg ++ u64be shares.length ++ shares.flatten) ∧
      (u64be shares.length).length = 8) ∧
    TallyProof.read sg.length readShare
        (TallyProof.serialize_in (.Private id sg [])) =
      .ok (.Private id sg [], [0, 0, 0, 0, 0, 0, 0]) ∧
    TallyProof.read sg.length readShare
        (TallyProof.serialize_in (.Private id sg [sh])) =
      .ok (.Private id sg [], [0, 0, 0, 0, 0, 0, 1] ++ sh) := by
  refine ⟨fun shares => ⟨rfl, rfl⟩, ?_, ?_⟩
  · simp only [TallyProof.serialize_in, TallyProof.read, List.length_nil,
      u64be, List.flatten, List.append_nil, List.append_assoc, readU8,
      List.cons_append, readBytesN_append id _ 32 hid,
      readBytesN_append sg _ sg.length rfl, readShares]
    norm_num
  · simp only [TallyProof.serialize_in, TallyProof.read,
      List.length_singleton, u64be, List.flatten, List.append_nil,
      List.append_assoc, readU8, List.cons_append,
      readBytesN_append id _ 32 hid,
      readBytesN_append sg _ sg.length rfl, readShares]
    norm_num

theorem tally_proof_share_count_width_mismatch_witness :
    zeros32.length = 32 ∧
    TallyProof.read 64 (fun _ => Option.none)
        (TallyProof.serialize_in (.Private zeros32 zeros64 [[5]])) =
      .ok (.Private zeros32 zeros64 [], [0, 0, 0, 0, 0, 0, 1] ++ [5]) :=
  ⟨by decide,
    (tally_proof_share_count_width_mismatch (fun _ => Option.none)
      zeros32 zeros64 [5] (by decide)).2.2⟩

/-- C9: a `VoteTally` with a 32-byte id and `Public` payload serializes
to exactly 33 bytes — the id followed by the tag byte 0 — and decoding
those bytes reproduces the original value, consuming the whole buffer. -/
theorem vote_tally_public_roundtrip (id : Bytes) (hid : id.length = 32) :
    (VoteTally.serialize ⟨id, .Public⟩).length = 33 ∧
    VoteTally.serialize ⟨id, .Public⟩ = id ++ [0] ∧
    VoteTally.read (VoteTally.serialize ⟨id, .Public⟩) =
      .ok (⟨id, .Public⟩, []) := by
  refine ⟨?_, rfl, ?_⟩
  · simp [VoteTally.serialize, hid]
  · simp only [VoteTally.serialize, VoteTallyPayload.payload_type,
      PayloadType.toByte, VoteTally.read,
      readBytesN_append id _ 32 hid, readU8, PayloadType.fromByte]

theorem vote_tally_public_roundtrip_witness :
    zeros32.length = 32 ∧
    (VoteTally.serialize ⟨zeros32, .Public⟩).length = 33 ∧
    VoteTally.read (VoteTally.serialize ⟨zeros32, .Public⟩) =
      .ok (⟨zeros32, .Public⟩, []) :=
  ⟨by decide, (vote_tally_public_roundtrip zeros32 (by decide)).1,
    (vote_tally_public_roundtrip zeros32 (by decide)).2.2⟩

end Chain
